import Mathlib

/-!
Shallow embedding of the SEEs particle-detector firmware
(`SEEsDriver/src/CircularBuffer.cpp`, `SEEsDriver/src/SEEs_ADC.cpp`,
`SEEsDriver/src/SnapManager.cpp`, `SEEsDriver/native/main_native.cpp`).

Machine integers: `uint32_t` values are modelled as `Nat` together with
explicit `% 2^32` at the operations where 32-bit wraparound matters
(timestamp subtraction, timestamp addition, the `+=` on the sample
accumulator).  `size_t` quantities (indices, sizes) are plain `Nat`: the
firmware never brings a `size_t` anywhere near overflow.  `float`
voltages are modelled as `ℚ`; every comparison the claims exercise is far
from any float-rounding boundary.  The cumulative hit counter is
modelled as `Nat`; it is a `uint32_t` in the source whose wrap is
unreachable in the behaviours the claims quantify over (each hit costs at
least the 300 µs refractory period).
-/

/-- `2^32`, the modulus of `uint32_t` arithmetic. -/
def U32 : Nat := 4294967296

/-- `uint32_t` addition: `(a + b)` reduced mod `2^32`. -/
def u32add (a b : Nat) : Nat := (a + b) % U32

/-- `uint32_t` subtraction `a - b` with wraparound (two's complement). -/
def u32sub (a b : Nat) : Nat := (a % U32 + (U32 - b % U32)) % U32

/-- Reinterpret a `uint32_t` bit pattern as a signed `int32_t`
(the `(int32_t)` cast in `sampleAndStream`). -/
def toSigned32 (a : Nat) : Int :=
  if a % U32 < 2147483648 then (a % U32 : Int) else (a % U32 : Int) - (U32 : Int)

/-- One record of the circular buffer
(`struct DetectorSample`, CircularBuffer.hpp lines 23–30). -/
structure DetectorSample where
  time_ms : ℚ
  voltage : ℚ
  hit : Nat
  layers : Nat
  cum_counts : Nat
  timestamp : Nat
deriving DecidableEq, Repr

instance : Inhabited DetectorSample :=
  ⟨{ time_ms := 0, voltage := 0, hit := 0, layers := 0, cum_counts := 0, timestamp := 0 }⟩

/-- State of `class CircularBuffer`: `_buffer` (the physical array `buf`
plus its allocation status `allocated`, i.e. `_buffer != nullptr`),
`_capacity`, `_head`, `_size`. -/
structure CircularBuffer where
  allocated : Bool
  capacity : Nat
  buf : List DetectorSample
  head : Nat
  size : Nat
deriving DecidableEq, Repr

namespace CircularBuffer

/-- A freshly constructed, not-yet-`begin()`-ed buffer (constructor,
CircularBuffer.cpp lines 8–12: `_buffer(nullptr)`, `_head(0)`, `_size(0)`,
`_capacity = capacitySeconds * sampleRateHz`). -/
def mkUnallocated (capacitySeconds sampleRateHz : Nat) : CircularBuffer :=
  { allocated := false, capacity := capacitySeconds * sampleRateHz,
    buf := [], head := 0, size := 0 }

/-- An allocated empty buffer of capacity `cap`: the state after a
successful `begin()` (lines 21–43), which allocates `_capacity` cells and
runs `clear()`. -/
def init (cap : Nat) : CircularBuffer :=
  { allocated := true, capacity := cap, buf := List.replicate cap default,
    head := 0, size := 0 }

/-- `CircularBuffer::push` (CircularBuffer.cpp lines 45–58): no-op if
`!_buffer`; else write at `_head`, advance `_head` circularly, saturate
`_size` at `_capacity`. -/
def push (st : CircularBuffer) (sample : DetectorSample) : CircularBuffer :=
  if st.allocated = false then st
  else
    { st with buf := st.buf.set st.head sample,
              head := (st.head + 1) % st.capacity,
              size := if st.size < st.capacity then st.size + 1 else st.size }

/-- Push a whole sequence of records, oldest first. -/
def pushAll (st : CircularBuffer) (L : List DetectorSample) : CircularBuffer :=
  L.foldl push st

/-- `CircularBuffer::physicalIndex` (lines 105–114): linear indexing while
not full, `(_head + logicalIndex) % _capacity` once full. -/
def physicalIndex (st : CircularBuffer) (logicalIndex : Nat) : Nat :=
  if st.size < st.capacity then logicalIndex
  else (st.head + logicalIndex) % st.capacity

/-- The live records in logical (oldest-to-newest) order: the contents
read by the loop `for i in 0.._size` at `_buffer[physicalIndex(i)]`. -/
def logicalList (st : CircularBuffer) : List DetectorSample :=
  (List.range st.size).map (fun i => st.buf.getD (st.physicalIndex i) default)

/-- `CircularBuffer::clear` (lines 89–92). -/
def clear (st : CircularBuffer) : CircularBuffer :=
  { st with head := 0, size := 0 }

/-- The `(uint32_t)(windowSeconds * 1000000.0f)` conversion
(line 65): for the non-negative in-range values the firmware uses, the
cast truncates the product toward zero. -/
def windowUsOf (windowSeconds : ℚ) : Nat :=
  (⌊windowSeconds * 1000000⌋).toNat % U32

/-- The scan loop of `extractWindow` (lines 72–80), traversing the live
records in logical order, carrying the remaining output budget
(`maxSamples - extracted`): the loop exits as soon as the budget is
exhausted, copies out each in-window record, and keeps traversal order. -/
def extractLoop (startTimeUs endTimeUs : Nat) :
    List DetectorSample → Nat → List DetectorSample
  | [], _ => []
  | s :: rest, budget =>
    if budget = 0 then []
    else if startTimeUs ≤ s.timestamp ∧ s.timestamp ≤ endTimeUs then
      s :: extractLoop startTimeUs endTimeUs rest (budget - 1)
    else extractLoop startTimeUs endTimeUs rest budget

/-- `CircularBuffer::extractWindow` (lines 60–83), with the caller's
output array abstracted to the returned list of records.  The window
bounds are `startTimeUs = centerTimeUs - windowUs` and
`endTimeUs = centerTimeUs + windowUs` in wrapping `uint32_t` arithmetic —
the source has no clamping of the lower bound. -/
def extractWindow (st : CircularBuffer) (centerTimeUs : Nat)
    (windowSeconds : ℚ) (maxSamples : Nat) : List DetectorSample :=
  if st.allocated = false ∨ st.size = 0 then []
  else
    let windowUs := windowUsOf windowSeconds
    let startTimeUs := u32sub centerTimeUs windowUs
    let endTimeUs := u32add centerTimeUs windowUs
    extractLoop startTimeUs endTimeUs st.logicalList maxSamples

/-- The scan loop of `extractWindow` again, this time translated
statement-by-statement as a state transformer: the buffer object, the
caller's output array and the `extracted` counter are threaded through
every iteration exactly as the C++ loop body leaves them (the body reads
`_buffer`/`_size`/`_head` but assigns no field; it writes only
`outBuffer[extracted++]`). -/
def extractGoImpl (startTimeUs endTimeUs maxSamples : Nat) :
    List Nat → CircularBuffer → List DetectorSample → Nat →
    CircularBuffer × List DetectorSample × Nat
  | [], st, out, extracted => (st, out, extracted)
  | i :: rest, st, out, extracted =>
    if extracted < maxSamples then
      let s := st.buf.getD (st.physicalIndex i) default
      if startTimeUs ≤ s.timestamp ∧ s.timestamp ≤ endTimeUs then
        extractGoImpl startTimeUs endTimeUs maxSamples rest st
          (out.set extracted s) (extracted + 1)
      else extractGoImpl startTimeUs endTimeUs maxSamples rest st out extracted
    else (st, out, extracted)

/-- `CircularBuffer::extractWindow` as a state transformer on
(buffer, output array), returning the final buffer object, the output
array after the loop's writes, and the returned `extracted` count. -/
def extractWindowImpl (st : CircularBuffer) (centerTimeUs : Nat)
    (windowSeconds : ℚ) (out : List DetectorSample) (maxSamples : Nat) :
    CircularBuffer × List DetectorSample × Nat :=
  if st.allocated = false ∨ st.size = 0 then (st, out, 0)
  else
    let windowUs := windowUsOf windowSeconds
    extractGoImpl (u32sub centerTimeUs windowUs) (u32add centerTimeUs windowUs)
      maxSamples (List.range st.size) st out 0

end CircularBuffer

/-- Well-formedness of a reachable allocated buffer: positive capacity,
physical array of exactly `capacity` cells, `size` saturating at
`capacity`, `head` in range, and — while not yet full — `head = size`
(both count the pushes so far). -/
def CircularBuffer.WF (st : CircularBuffer) : Prop :=
  st.allocated = true ∧ 0 < st.capacity ∧ st.buf.length = st.capacity ∧
  st.size ≤ st.capacity ∧ st.head < st.capacity ∧
  (st.size < st.capacity → st.head = st.size)

/-- The purely list-level FIFO step a bounded ring of capacity `cap`
performs: append while below capacity, else drop the oldest and append. -/
def listPush (cap : Nat) (l : List DetectorSample) (x : DetectorSample) :
    List DetectorSample :=
  if l.length < cap then l ++ [x] else l.tail ++ [x]

/-- Modelled from the spec: the window of `extractWindow` as the claim
states it — lower bound `max(0, centerTime - windowUs)` (clamped at 0,
no wraparound), upper bound `centerTime + windowUs` — for comparison
against the source-translated `extractWindow`. -/
def extractWindowSpecClamped (st : CircularBuffer) (centerTimeUs : Nat)
    (windowSeconds : ℚ) (maxSamples : Nat) : List DetectorSample :=
  let windowUs := CircularBuffer.windowUsOf windowSeconds
  ((st.logicalList.filter fun s =>
      decide (centerTimeUs - windowUs ≤ s.timestamp ∧
        s.timestamp ≤ centerTimeUs + windowUs)).take maxSamples)

/-- Detection thresholds and refractory period
(`SEEs_ADC.hpp` lines 55–66; identical values in `main_native.cpp`
lines 246–250). -/
structure ADCConfig where
  lowerEnter : ℚ
  lowerExit : ℚ
  upperLimit : ℚ
  refractUs : Nat
deriving DecidableEq, Repr

/-- `LOWER_ENTER_V = 0.30`, `LOWER_EXIT_V = 0.300`, `UPPER_LIMIT_V = 0.800`,
`REFRACT_US = 300`. -/
def seesConfig : ADCConfig :=
  { lowerEnter := 3/10, lowerExit := 3/10, upperLimit := 4/5, refractUs := 300 }

/-- Result of one evaluation of the hysteresis + refractory detector. -/
structure DetectorResult where
  hit : Nat
  armed : Bool
  last_hit_us : Nat
  cum_counts : Nat
deriving DecidableEq, Repr

/-- The detection block of `SEEs_ADC::sampleAndStream`
(SEEs_ADC.cpp lines 162–176): in the armed state, a voltage inside
`[LOWER_ENTER_V, UPPER_LIMIT_V]` whose wraparound-safe distance from the
last hit reaches `REFRACT_US` emits a hit, bumps the counter, records the
hit time and disarms; otherwise nothing changes.  Disarmed, it re-arms
exactly when the voltage drops below `LOWER_EXIT_V` and never emits. -/
def detectorStep (cfg : ADCConfig) (armed : Bool) (last_hit_us cum_counts : Nat)
    (now_us : Nat) (v : ℚ) : DetectorResult :=
  if armed then
    if cfg.lowerEnter ≤ v ∧ v ≤ cfg.upperLimit ∧
        cfg.refractUs ≤ u32sub now_us last_hit_us then
      { hit := 1, armed := false, last_hit_us := now_us,
        cum_counts := cum_counts + 1 }
    else
      { hit := 0, armed := true, last_hit_us := last_hit_us,
        cum_counts := cum_counts }
  else
    { hit := 0, armed := decide (v < cfg.lowerExit),
      last_hit_us := last_hit_us, cum_counts := cum_counts }

/-- The per-sample hit flags emitted by a sequence of detector
evaluations at the given `(now_us, voltage)` points. -/
def detectorTrace (cfg : ADCConfig) (armed : Bool) (last_hit_us cum_counts : Nat) :
    List (Nat × ℚ) → List Nat
  | [] => []
  | (now, v) :: rest =>
    let r := detectorStep cfg armed last_hit_us cum_counts now v
    r.hit :: detectorTrace cfg r.armed r.last_hit_us r.cum_counts rest

/-- The cumulative hit counter after a sequence of detector evaluations. -/
def detectorFinalCum (cfg : ADCConfig) (armed : Bool) (last_hit_us cum_counts : Nat) :
    List (Nat × ℚ) → Nat
  | [] => cum_counts
  | (now, v) :: rest =>
    let r := detectorStep cfg armed last_hit_us cum_counts now v
    detectorFinalCum cfg r.armed r.last_hit_us r.cum_counts rest

/-- Driver state of `class SEEs_ADC` (SEEs_ADC.hpp lines 68–88), without
the pin/LED/file-handle bookkeeping the claims never touch.
`bufferFileOpen` stands for `_bufferFile` holding an open file. -/
structure ADCState where
  isCollecting : Bool
  sdAvailable : Bool
  bufferFileOpen : Bool
  armed : Bool
  t0_us : Nat
  next_sample_us : Nat
  last_hit_us : Nat
  cum_counts : Nat
  buffer : CircularBuffer
deriving DecidableEq, Repr

/-- One `time_ms,voltage_V,hit,cum_counts` telemetry line
(SEEs_ADC.cpp lines 193–196). -/
structure StreamLine where
  t_ms : ℚ
  voltage : ℚ
  hit : Nat
  cum_counts : Nat
deriving DecidableEq, Repr

/-- The timing gate of `sampleAndStream` (line 155): the call is accepted
unless `(int32_t)(now_us - _next_sample_us)` is negative. -/
def tickAccepted (st : ADCState) (now_us : Nat) : Bool :=
  decide (0 ≤ toSigned32 (u32sub now_us st.next_sample_us))

/-- `SEEs_ADC::sampleAndStream` (SEEs_ADC.cpp lines 152–211).  The ADC
read (`analogRead` and counts-to-volts scaling) is an external
collaborator; the sampled voltage `v` is taken as an input.  Returns the
new driver state, the Serial telemetry line (emitted only while
`_isCollecting`), and the SD buffer-file line (emitted only while
collecting with the SD available and the buffer file open). -/
def sampleAndStream (st : ADCState) (now_us : Nat) (v : ℚ) :
    ADCState × Option StreamLine × Option StreamLine :=
  if tickAccepted st now_us = false then (st, none, none)
  else
    let r := detectorStep seesConfig st.armed st.last_hit_us st.cum_counts now_us v
    let t_ms : ℚ := (u32sub now_us st.t0_us : Nat) / 1000
    let sample : DetectorSample :=
      { time_ms := t_ms, voltage := v, hit := r.hit, layers := 1,
        cum_counts := r.cum_counts, timestamp := now_us }
    let st' : ADCState :=
      { st with next_sample_us := u32add st.next_sample_us 100,
                armed := r.armed, last_hit_us := r.last_hit_us,
                cum_counts := r.cum_counts,
                buffer := st.buffer.push sample }
    let line : StreamLine :=
      { t_ms := t_ms, voltage := v, hit := r.hit, cum_counts := r.cum_counts }
    (st', if st.isCollecting then some line else none,
      if st.isCollecting ∧ st.sdAvailable ∧ st.bufferFileOpen then some line
      else none)

/-- Fold a whole sequence of `sampleAndStream` calls over the driver
state. -/
def runCalls (st : ADCState) : List (Nat × ℚ) → ADCState
  | [] => st
  | (now, v) :: rest => runCalls (sampleAndStream st now v).1 rest

/-- How many of a sequence of `sampleAndStream` calls pass the timing
gate. -/
def acceptedCount (st : ADCState) : List (Nat × ℚ) → Nat
  | [] => 0
  | (now, v) :: rest =>
    (if tickAccepted st now then 1 else 0) +
      acceptedCount (sampleAndStream st now v).1 rest

/-- The distinguishable failure causes of `SnapManager::captureSnap`,
one per early-return branch (each prints its own diagnostic). -/
inductive SnapError
  | sdUnavailable
  | emptyStore
  | allocFail
  | emptyWindow
  | fileOpenFail
deriving DecidableEq, Repr

/-- State of `class SnapManager` (SnapManager.hpp lines 52–56). -/
structure SnapManagerState where
  windowSeconds : ℚ
  snapCount : Nat
  sdAvailable : Bool
deriving DecidableEq, Repr

/-- The durable artifact `writeSnapFile` produces: the two filename
fields (`snap_<count:05d>_<triggerTimeUs:010d>.csv`) and the extracted
records written as CSV rows. -/
structure SnapArtifact where
  fileSeq : Nat
  triggerTimeUs : Nat
  samples : List DetectorSample
deriving DecidableEq, Repr

/-- Outcome of `captureSnap`: the bool return value together with the
artifact (on success) or the failure branch taken. -/
inductive SnapResult
  | ok (artifact : SnapArtifact)
  | err (e : SnapError)
deriving DecidableEq, Repr

/-- `SnapManager::captureSnap` (SnapManager.cpp lines 42–93).
`allocOk` models the `new (std::nothrow)` extraction-buffer allocation
succeeding, `fileOpenOk` the `SD.open` inside `writeSnapFile`.  The
branches, in source order: SD unavailable → fail; empty buffer → fail;
allocation failure → fail; `extractWindow` with
`maxSamples = (size_t)(_windowSeconds * 2 * 10000)`; zero matches → fail;
file-open failure → fail; otherwise write the artifact and only then
increment `_snapCount` (the filename uses the pre-increment count). -/
def captureSnap (sm : SnapManagerState) (buffer : CircularBuffer)
    (triggerTimeUs : Nat) (allocOk fileOpenOk : Bool) :
    SnapResult × SnapManagerState :=
  if sm.sdAvailable = false then (.err .sdUnavailable, sm)
  else if buffer.size = 0 then (.err .emptyStore, sm)
  else if allocOk = false then (.err .allocFail, sm)
  else
    let maxSamples := (⌊sm.windowSeconds * 2 * 10000⌋).toNat
    let samples := buffer.extractWindow triggerTimeUs sm.windowSeconds maxSamples
    if samples.length = 0 then (.err .emptyWindow, sm)
    else if fileOpenOk = false then (.err .fileOpenFail, sm)
    else (.ok { fileSeq := sm.snapCount, triggerTimeUs := triggerTimeUs,
                samples := samples },
          { sm with snapCount := sm.snapCount + 1 })

/-- State of the native simulation target (`SEEs_ADC_Native`,
main_native.cpp), restricted to what its snap path touches: the ring
store, the snap manager, and wall-clock time. -/
structure NativeState where
  store : CircularBuffer
  snapManager : SnapManagerState
  now_us : Nat
deriving DecidableEq, Repr

/-- The native shim `delay(ms)` (native/Arduino.h lines 44–46): a bare
`std::this_thread::sleep_for`.  Wall-clock time advances by `ms`
milliseconds; no firmware code runs meanwhile — in particular
`sampleAndStream` is never entered, so nothing is pushed into the ring
store for the whole duration. -/
def nativeDelay (st : NativeState) (ms : Nat) : NativeState :=
  { st with now_us := st.now_us + ms * 1000 }

/-- `SEEs_ADC_Native::processCommand` for `cmd == "snap"`
(main_native.cpp lines 225–238): record `snapTime = micros()`, then
`delay(2500)`, then `captureSnap(_circularBuffer, snapTime)`. -/
def processSnapNative (st : NativeState) (allocOk fileOpenOk : Bool) :
    NativeState × SnapResult :=
  let snapTime := st.now_us
  let st1 := nativeDelay st 2500
  let rs := captureSnap st1.snapManager st1.store snapTime allocOk fileOpenOk
  ({ st1 with snapManager := rs.2 }, rs.1)

/-! ## Ring-store lemmas -/

theorem CircularBuffer.WF_init {cap : Nat} (h : 0 < cap) :
    (CircularBuffer.init cap).WF := by
  refine ⟨rfl, h, ?_, Nat.zero_le _, h, fun _ => rfl⟩
  simp [CircularBuffer.init]

theorem CircularBuffer.push_capacity (st : CircularBuffer) (x : DetectorSample) :
    (st.push x).capacity = st.capacity := by
  unfold CircularBuffer.push
  split <;> rfl

theorem CircularBuffer.length_logicalList (st : CircularBuffer) :
    st.logicalList.length = st.size := by
  simp [CircularBuffer.logicalList]

theorem CircularBuffer.physicalIndex_lt (st : CircularBuffer)
    (hcap : 0 < st.capacity) (hsz : st.size ≤ st.capacity)
    {i : Nat} (hi : i < st.size) : st.physicalIndex i < st.capacity := by
  unfold CircularBuffer.physicalIndex
  split
  · omega
  · exact Nat.mod_lt _ hcap

theorem CircularBuffer.push_eq_of_allocated {st : CircularBuffer}
    (hal : st.allocated = true) (x : DetectorSample) :
    st.push x =
      { st with buf := st.buf.set st.head x,
                head := (st.head + 1) % st.capacity,
                size := if st.size < st.capacity then st.size + 1 else st.size } := by
  unfold CircularBuffer.push
  rw [hal]
  simp

theorem CircularBuffer.WF_push {st : CircularBuffer} (h : st.WF)
    (x : DetectorSample) : (st.push x).WF := by
  obtain ⟨hal, hcap, hlen, hsz, hhd, hns⟩ := h
  rw [CircularBuffer.push_eq_of_allocated hal]
  refine ⟨hal, hcap, by simpa using hlen, ?_, Nat.mod_lt _ hcap, ?_⟩
  · dsimp only
    split <;> omega
  · dsimp only
    intro hlt
    by_cases hsl : st.size < st.capacity
    · simp only [if_pos hsl] at hlt ⊢
      rw [hns hsl, Nat.mod_eq_of_lt (by omega)]
    · simp only [if_neg hsl] at hlt
      omega

theorem List.getD_set_ne {α : Type} (l : List α) {k j : Nat} (h : k ≠ j)
    (a d : α) : (l.set k a).getD j d = l.getD j d := by
  rw [List.getD_eq_getElem?_getD, List.getElem?_set_ne h, ← List.getD_eq_getElem?_getD]

theorem List.getD_set_self {α : Type} (l : List α) {k : Nat} (h : k < l.length)
    (a d : α) : (l.set k a).getD k d = a := by
  rw [List.getD_eq_getElem?_getD, List.getElem?_set_self h]
  rfl

theorem CircularBuffer.getD_logicalList (st : CircularBuffer)
    {i : Nat} (hi : i < st.logicalList.length) :
    st.logicalList[i] = st.buf.getD (st.physicalIndex i) default := by
  simp [CircularBuffer.logicalList]

/-- One push seen at the level of logical contents: append while below
capacity, else evict the logically-oldest record and append. -/
theorem CircularBuffer.logicalList_push {st : CircularBuffer} (h : st.WF)
    (x : DetectorSample) :
    (st.push x).logicalList =
      if st.size < st.capacity then st.logicalList ++ [x]
      else st.logicalList.tail ++ [x] := by
  obtain ⟨hal, hcap, hlen, hsz, hhd, hns⟩ := h
  rw [CircularBuffer.push_eq_of_allocated hal]
  by_cases hsl : st.size < st.capacity
  · -- not yet full: head = size, the new record lands at logical index size
    simp only [if_pos hsl]
    have hhead := hns hsl
    unfold CircularBuffer.logicalList CircularBuffer.physicalIndex
    simp only
    have hidx : ∀ i, i ≤ st.size →
        (if st.size + 1 < st.capacity then i
         else ((st.head + 1) % st.capacity + i) % st.capacity) = i := by
      intro i hi
      by_cases hfull : st.size + 1 < st.capacity
      · rw [if_pos hfull]
      · rw [if_neg hfull]
        have hc : st.size + 1 = st.capacity := by omega
        rw [hhead, Nat.mod_add_mod, hc, Nat.add_mod_left]
        exact Nat.mod_eq_of_lt (by omega)
    rw [List.range_succ, List.map_append, List.map_singleton]
    congr 1
    · apply List.map_congr_left
      intro i hi
      rw [List.mem_range] at hi
      rw [hidx i (Nat.le_of_lt hi), if_pos hsl]
      exact List.getD_set_ne _ (by omega) _ _
    · rw [hidx st.size le_rfl, hhead]
      rw [List.getD_set_self _ (by omega)]
  · -- full: the write at head evicts logical index 0
    simp only [if_neg hsl]
    have hsize : st.size = st.capacity := by omega
    apply List.ext_getElem
    · simp only [CircularBuffer.logicalList, List.length_append,
        List.length_map, List.length_range, List.length_tail,
        List.length_singleton]
      omega
    · intro i h1 h2
      simp only [CircularBuffer.logicalList, List.length_map,
        List.length_range] at h1
      rw [CircularBuffer.getD_logicalList]
      dsimp only [CircularBuffer.physicalIndex]
      simp only [if_neg hsl]
      rw [Nat.mod_add_mod]
      by_cases hlast : i + 1 < st.size
      · -- middle of the window: old logical index i+1
        have hne : st.head ≠ (st.head + 1 + i) % st.capacity := by
          intro heq
          have hmod : (st.head + 1 + i) % st.capacity = st.head % st.capacity := by
            rw [← heq, Nat.mod_eq_of_lt hhd]
          have hdvd : st.capacity ∣ (st.head + 1 + i) - st.head :=
            (Nat.modEq_iff_dvd' (by omega)).mp hmod.symm
          have : st.capacity ≤ st.head + 1 + i - st.head :=
            Nat.le_of_dvd (by omega) hdvd
          omega
        rw [List.getD_set_ne _ hne]
        have htl : i < st.logicalList.tail.length := by
          simp only [List.length_tail, CircularBuffer.length_logicalList]
          omega
        rw [List.getElem_append, dif_pos htl, List.getElem_tail]
        rw [st.getD_logicalList (by rw [CircularBuffer.length_logicalList]; omega)]
        dsimp only [CircularBuffer.physicalIndex]
        rw [if_neg hsl]
        congr 2
        omega
      · -- the freshly written record at logical index size - 1
        have hieq : i + 1 = st.size := by omega
        have hmod : (st.head + 1 + i) % st.capacity = st.head := by
          have hshift : st.head + 1 + i = st.capacity + st.head := by omega
          rw [hshift, Nat.add_mod_left]
          exact Nat.mod_eq_of_lt hhd
        rw [hmod, List.getD_set_self _ (by omega)]
        have htl : ¬ i < st.logicalList.tail.length := by
          simp only [List.length_tail, CircularBuffer.length_logicalList]
          omega
        rw [List.getElem_append, dif_neg htl]
        simp

theorem CircularBuffer.push_as_listPush {st : CircularBuffer} (h : st.WF)
    (x : DetectorSample) :
    (st.push x).logicalList = listPush st.capacity st.logicalList x := by
  rw [CircularBuffer.logicalList_push h]
  unfold listPush
  rw [CircularBuffer.length_logicalList]

theorem CircularBuffer.WF_pushAll {st : CircularBuffer} (h : st.WF)
    (L : List DetectorSample) : (st.pushAll L).WF := by
  induction L generalizing st with
  | nil => exact h
  | cons x L ih =>
    unfold CircularBuffer.pushAll at *
    rw [List.foldl_cons]
    exact ih (CircularBuffer.WF_push h x)

theorem CircularBuffer.pushAll_capacity (st : CircularBuffer)
    (L : List DetectorSample) : (st.pushAll L).capacity = st.capacity := by
  induction L generalizing st with
  | nil => rfl
  | cons x L ih =>
    unfold CircularBuffer.pushAll at *
    rw [List.foldl_cons, ih, CircularBuffer.push_capacity]

theorem CircularBuffer.logicalList_pushAll {st : CircularBuffer} (h : st.WF)
    (L : List DetectorSample) :
    (st.pushAll L).logicalList = L.foldl (listPush st.capacity) st.logicalList := by
  induction L generalizing st with
  | nil => rfl
  | cons x L ih =>
    unfold CircularBuffer.pushAll at *
    rw [List.foldl_cons, List.foldl_cons, ih (CircularBuffer.WF_push h x),
        CircularBuffer.push_capacity, CircularBuffer.push_as_listPush h]

theorem foldl_listPush_drop {cap : Nat} (hcap : 0 < cap)
    (L : List DetectorSample) :
    L.foldl (listPush cap) [] = L.drop (L.length - cap) := by
  induction L using List.reverseRecOn with
  | nil => simp
  | append_singleton L x ih =>
    rw [List.foldl_append, List.foldl_cons, List.foldl_nil, ih]
    unfold listPush
    by_cases hl : L.length < cap
    · have h0 : L.length - cap = 0 := by omega
      rw [h0, List.drop_zero, if_pos hl]
      have h1 : (L ++ [x]).length - cap = 0 := by
        rw [List.length_append, List.length_singleton]
        omega
      rw [h1, List.drop_zero]
    · have hcond : ¬ (L.drop (L.length - cap)).length < cap := by
        rw [List.length_drop]
        omega
      rw [if_neg hcond, List.tail_drop]
      rw [List.drop_append_eq_append_drop]
      have h2 : (L ++ [x]).length - cap = L.length - cap + 1 := by
        rw [List.length_append, List.length_singleton]
        omega
      rw [h2]
      have h3 : L.length - cap + 1 - L.length = 0 := by omega
      rw [h3, List.drop_zero]

theorem CircularBuffer.logicalList_init (cap : Nat) :
    (CircularBuffer.init cap).logicalList = [] := rfl

/-! ## Claim C2 -/

/-- C2: for every sequence of pushes into a store of capacity N > 0,
`size ≤ capacity` holds after every operation; once full, each further
push evicts exactly the logically-oldest record (the one at `head`)
before overwriting, so after M > N pushes with strictly increasing
timestamps the store holds exactly the last N pushed records,
oldest-first, under the logical-to-physical mapping
`(head + i) % capacity` once wrapped, else `i`. -/
theorem ringStore_fifo_eviction (cap : Nat) (L : List DetectorSample)
    (hcap : 0 < cap) (hlen : cap < L.length)
    (hmono : L.Chain' fun a b => a.timestamp < b.timestamp) :
    (∀ P : List DetectorSample,
        (CircularBuffer.pushAll (CircularBuffer.init cap) P).size ≤
          (CircularBuffer.pushAll (CircularBuffer.init cap) P).capacity) ∧
    (CircularBuffer.pushAll (CircularBuffer.init cap) L).size = cap ∧
    (CircularBuffer.pushAll (CircularBuffer.init cap) L).logicalList =
      L.drop (L.length - cap) ∧
    (∀ (st : CircularBuffer) (x : DetectorSample), st.WF →
        st.size = st.capacity →
        (st.push x).logicalList = st.logicalList.tail ++ [x]) := by
  have hwf : (CircularBuffer.init cap).WF := CircularBuffer.WF_init hcap
  have hdrop :
      (CircularBuffer.pushAll (CircularBuffer.init cap) L).logicalList =
        L.drop (L.length - cap) := by
    rw [CircularBuffer.logicalList_pushAll hwf, CircularBuffer.logicalList_init]
    exact foldl_listPush_drop hcap L
  refine ⟨?_, ?_, hdrop, ?_⟩
  · intro P
    exact (CircularBuffer.WF_pushAll hwf P).2.2.2.1
  · have hsz := CircularBuffer.length_logicalList
      (CircularBuffer.pushAll (CircularBuffer.init cap) L)
    rw [hdrop, List.length_drop] at hsz
    omega
  · intro st x hwf' hfull
    rw [CircularBuffer.logicalList_push hwf', if_neg (by omega)]

/-- Witness for C2 at capacity 2 and three pushed records: the store
retains exactly the last two, oldest-first. -/
theorem ringStore_fifo_eviction_witness :
    (CircularBuffer.pushAll (CircularBuffer.init 2)
        [⟨0, 0, 0, 1, 0, 10⟩, ⟨0, 0, 0, 1, 0, 20⟩, ⟨0, 0, 0, 1, 0, 30⟩]).size = 2 ∧
    (CircularBuffer.pushAll (CircularBuffer.init 2)
        [⟨0, 0, 0, 1, 0, 10⟩, ⟨0, 0, 0, 1, 0, 20⟩, ⟨0, 0, 0, 1, 0, 30⟩]).logicalList =
      [⟨0, 0, 0, 1, 0, 20⟩, ⟨0, 0, 0, 1, 0, 30⟩] := by
  have h := ringStore_fifo_eviction 2
    [⟨0, 0, 0, 1, 0, 10⟩, ⟨0, 0, 0, 1, 0, 20⟩, ⟨0, 0, 0, 1, 0, 30⟩]
    (by decide) (by decide) (by simp [List.chain'_cons])
  exact ⟨h.2.1, by rw [h.2.2.1]; decide⟩

/-! ## Extract-window lemmas -/

theorem CircularBuffer.extractLoop_eq (s e : Nat) (l : List DetectorSample)
    (n : Nat) :
    CircularBuffer.extractLoop s e l n =
      (l.filter fun x => decide (s ≤ x.timestamp ∧ x.timestamp ≤ e)).take n := by
  induction l generalizing n with
  | nil => simp [CircularBuffer.extractLoop]
  | cons a l ih =>
    unfold CircularBuffer.extractLoop
    by_cases hn : n = 0
    · simp [hn]
    · obtain ⟨m, rfl⟩ : ∃ m, n = m + 1 := ⟨n - 1, by omega⟩
      rw [if_neg hn]
      by_cases hp : s ≤ a.timestamp ∧ a.timestamp ≤ e
      · rw [if_pos hp, List.filter_cons_of_pos (by simpa using hp),
            List.take_succ_cons]
        simp only [Nat.add_sub_cancel]
        rw [ih]
      · rw [if_neg hp, List.filter_cons_of_neg (by simpa using hp), ih]

/-! ## Claim C1 -/

/-- C1 (amended): for every allocated store and every query,
`extractWindow` returns exactly the currently-retained records whose
timestamp lies in `[centerTime - windowUs, centerTime + windowUs]`
computed in wrapping 32-bit unsigned arithmetic — there is no clamp of
the lower bound at 0, so for `centerTime < windowUs` the lower bound
wraps around — scanned and returned in oldest-to-newest order, truncated
after `maxSamples` matches. -/
theorem extractWindow_filter_take (st : CircularBuffer) (c : Nat) (w : ℚ)
    (m : Nat) (hal : st.allocated = true) :
    st.extractWindow c w m =
      (st.logicalList.filter fun s =>
        decide (u32sub c (CircularBuffer.windowUsOf w) ≤ s.timestamp ∧
          s.timestamp ≤ u32add c (CircularBuffer.windowUsOf w))).take m := by
  unfold CircularBuffer.extractWindow
  by_cases hsz : st.size = 0
  · rw [if_pos (Or.inr hsz)]
    have hnil : st.logicalList = [] := by
      unfold CircularBuffer.logicalList
      rw [hsz]
      rfl
    rw [hnil]
    simp
  · rw [if_neg (by simp [hal, hsz])]
    exact CircularBuffer.extractLoop_eq _ _ _ _

/-- Witness for C1's amended theorem on a two-record store. -/
theorem extractWindow_filter_take_witness :
    ((CircularBuffer.pushAll (CircularBuffer.init 3)
        [⟨0, 0, 0, 1, 0, 100⟩, ⟨0, 0, 0, 1, 0, 250⟩]).allocated = true) ∧
    (CircularBuffer.pushAll (CircularBuffer.init 3)
        [⟨0, 0, 0, 1, 0, 100⟩, ⟨0, 0, 0, 1, 0, 250⟩]).extractWindow 200 (1/10000) 10 =
      ((CircularBuffer.pushAll (CircularBuffer.init 3)
          [⟨0, 0, 0, 1, 0, 100⟩, ⟨0, 0, 0, 1, 0, 250⟩]).logicalList.filter fun s =>
        decide (u32sub 200 (CircularBuffer.windowUsOf (1/10000)) ≤ s.timestamp ∧
          s.timestamp ≤ u32add 200 (CircularBuffer.windowUsOf (1/10000)))).take 10 :=
  ⟨by decide,
   extractWindow_filter_take _ 200 (1/10000) 10 (by decide)⟩

/-- Counterexample to C1 as stated: a retained record with timestamp 0
lies inside the claimed clamped window `[max(0, 0 - 1e6), 0 + 1e6]` of the
query `extractWindow(0, 1.0, out, 10)`, yet the code returns nothing,
because the unclamped `uint32_t` lower bound wraps to 4293967296. -/
theorem extractWindow_no_clamp_counterexample :
    ((CircularBuffer.init 5).push ⟨0, 0, 0, 1, 0, 0⟩).extractWindow 0 1 10 = [] ∧
    extractWindowSpecClamped ((CircularBuffer.init 5).push ⟨0, 0, 0, 1, 0, 0⟩)
        0 1 10 = [⟨0, 0, 0, 1, 0, 0⟩] ∧
    ((CircularBuffer.init 5).push ⟨0, 0, 0, 1, 0, 0⟩).extractWindow 0 1 10 ≠
      extractWindowSpecClamped ((CircularBuffer.init 5).push ⟨0, 0, 0, 1, 0, 0⟩)
        0 1 10 := by
  have hw : CircularBuffer.windowUsOf 1 = 1000000 := by
    norm_num [CircularBuffer.windowUsOf, U32]
    decide
  have h1 : ((CircularBuffer.init 5).push ⟨0, 0, 0, 1, 0, 0⟩).extractWindow
      0 1 10 = [] := by
    unfold CircularBuffer.extractWindow
    rw [if_neg (by decide), hw]
    decide
  have h2 : extractWindowSpecClamped ((CircularBuffer.init 5).push ⟨0, 0, 0, 1, 0, 0⟩)
      0 1 10 = [⟨0, 0, 0, 1, 0, 0⟩] := by
    unfold extractWindowSpecClamped
    rw [hw]
    decide
  refine ⟨h1, h2, ?_⟩
  rw [h1, h2]
  decide

/-! ## Claim C8 -/

/-- C8: `push` and `extractWindow` on an unallocated store are safe
no-ops (`push` changes nothing, `extractWindow` returns zero records);
on an allocated empty store `extractWindow` returns the empty sequence,
and with `maxSamples = 0` it always returns the empty sequence. -/
theorem push_extract_degenerate (st : CircularBuffer) (x : DetectorSample)
    (c : Nat) (w : ℚ) (m : Nat) :
    (st.allocated = false → st.push x = st) ∧
    (st.allocated = false → st.extractWindow c w m = []) ∧
    (st.allocated = true → st.size = 0 → st.extractWindow c w m = []) ∧
    st.extractWindow c w 0 = [] := by
  refine ⟨?_, ?_, ?_, ?_⟩
  · intro h
    unfold CircularBuffer.push
    rw [if_pos h]
  · intro h
    unfold CircularBuffer.extractWindow
    rw [if_pos (Or.inl h)]
  · intro _ h
    unfold CircularBuffer.extractWindow
    rw [if_pos (Or.inr h)]
  · unfold CircularBuffer.extractWindow
    split
    · rfl
    · rw [CircularBuffer.extractLoop_eq]
      simp

/-- Witness for C8: an unallocated 30 s × 10 kHz store ignores `push` and
answers `extractWindow` with nothing; an allocated empty store and a
`maxSamples = 0` query also yield nothing. -/
theorem push_extract_degenerate_witness :
    ((CircularBuffer.mkUnallocated 30 10000).push ⟨0, 0, 0, 1, 0, 5⟩ =
      CircularBuffer.mkUnallocated 30 10000) ∧
    ((CircularBuffer.mkUnallocated 30 10000).extractWindow 7 1 4 = []) ∧
    ((CircularBuffer.init 3).extractWindow 7 1 4 = []) ∧
    ((CircularBuffer.init 3).extractWindow 7 1 0 = []) :=
  ⟨(push_extract_degenerate _ ⟨0, 0, 0, 1, 0, 5⟩ 7 1 4).1 rfl,
   (push_extract_degenerate _ ⟨0, 0, 0, 1, 0, 5⟩ 7 1 4).2.1 rfl,
   (push_extract_degenerate _ ⟨0, 0, 0, 1, 0, 5⟩ 7 1 4).2.2.1 rfl rfl,
   (push_extract_degenerate _ ⟨0, 0, 0, 1, 0, 5⟩ 7 1 0).2.2.2⟩

/-! ## Claim C10 -/

theorem extractGoImpl_frame (s e maxS : Nat) (idx : List Nat)
    (st : CircularBuffer) (out : List DetectorSample) (k : Nat) :
    (CircularBuffer.extractGoImpl s e maxS idx st out k).1 = st ∧
    k ≤ (CircularBuffer.extractGoImpl s e maxS idx st out k).2.2 ∧
    ∀ j, (CircularBuffer.extractGoImpl s e maxS idx st out k).2.2 ≤ j →
      (CircularBuffer.extractGoImpl s e maxS idx st out k).2.1.getD j default =
        out.getD j default := by
  induction idx generalizing out k with
  | nil => exact ⟨rfl, le_rfl, fun j _ => rfl⟩
  | cons i rest ih =>
    unfold CircularBuffer.extractGoImpl
    dsimp only
    split
    · split
      · obtain ⟨h1, h2, h3⟩ :=
          ih (out.set k (st.buf.getD (st.physicalIndex i) default)) (k + 1)
        refine ⟨h1, by omega, ?_⟩
        intro j hj
        rw [h3 j hj]
        exact List.getD_set_ne _ (by omega) _ _
      · obtain ⟨h1, h2, h3⟩ := ih out k
        exact ⟨h1, h2, h3⟩
    · exact ⟨rfl, le_rfl, fun j _ => rfl⟩

/-- C10: `extractWindow` never mutates the store — the buffer object
(head, size, capacity, every stored record) is returned unchanged — and
the only memory it writes is the caller's output array, at positions
strictly below the returned count. -/
theorem extractWindow_frame (st : CircularBuffer) (c : Nat) (w : ℚ)
    (out : List DetectorSample) (m : Nat) :
    (CircularBuffer.extractWindowImpl st c w out m).1 = st ∧
    ∀ j, (CircularBuffer.extractWindowImpl st c w out m).2.2 ≤ j →
      (CircularBuffer.extractWindowImpl st c w out m).2.1.getD j default =
        out.getD j default := by
  unfold CircularBuffer.extractWindowImpl
  split
  · exact ⟨rfl, fun j _ => rfl⟩
  · obtain ⟨h1, _, h3⟩ := extractGoImpl_frame
      (u32sub c (CircularBuffer.windowUsOf w)) (u32add c (CircularBuffer.windowUsOf w))
      m (List.range st.size) st out 0
    exact ⟨h1, h3⟩

/-- Witness for C10 on a one-record store: the store comes back
identical and the output array beyond the returned count is untouched. -/
theorem extractWindow_frame_witness :
    ((CircularBuffer.extractWindowImpl ((CircularBuffer.init 2).push ⟨0, 0, 0, 1, 0, 5⟩)
        5 0 [⟨1, 1, 1, 1, 1, 1⟩, ⟨2, 2, 2, 2, 2, 2⟩] 2).1 =
      (CircularBuffer.init 2).push ⟨0, 0, 0, 1, 0, 5⟩) ∧
    ((CircularBuffer.extractWindowImpl ((CircularBuffer.init 2).push ⟨0, 0, 0, 1, 0, 5⟩)
        5 0 [⟨1, 1, 1, 1, 1, 1⟩, ⟨2, 2, 2, 2, 2, 2⟩] 2).2.1.getD 1 default =
      List.getD [⟨1, 1, 1, 1, 1, 1⟩, ⟨2, 2, 2, 2, 2, 2⟩] 1 default) :=
  ⟨(extractWindow_frame ((CircularBuffer.init 2).push ⟨0, 0, 0, 1, 0, 5⟩)
      5 0 [⟨1, 1, 1, 1, 1, 1⟩, ⟨2, 2, 2, 2, 2, 2⟩] 2).1,
   (extractWindow_frame ((CircularBuffer.init 2).push ⟨0, 0, 0, 1, 0, 5⟩)
      5 0 [⟨1, 1, 1, 1, 1, 1⟩, ⟨2, 2, 2, 2, 2, 2⟩] 2).2 1 (by
        have hw : CircularBuffer.windowUsOf 0 = 0 := by
          norm_num [CircularBuffer.windowUsOf, U32]
        unfold CircularBuffer.extractWindowImpl
        rw [if_neg (by decide), hw]
        decide)⟩

/-! ## Detector lemmas and claims C4, C5 -/

theorem detectorStep_cum (cfg : ADCConfig) (armed : Bool)
    (last cum now : Nat) (v : ℚ) :
    (detectorStep cfg armed last cum now v).cum_counts =
      cum + (detectorStep cfg armed last cum now v).hit := by
  unfold detectorStep
  split
  · split
    · rfl
    · rfl
  · rfl

theorem detectorFinalCum_eq (cfg : ADCConfig) (evts : List (Nat × ℚ)) :
    ∀ (armed : Bool) (last cum : Nat),
      detectorFinalCum cfg armed last cum evts =
        cum + (detectorTrace cfg armed last cum evts).sum := by
  induction evts with
  | nil =>
    intro armed last cum
    simp [detectorFinalCum, detectorTrace]
  | cons p rest ih =>
    intro armed last cum
    obtain ⟨now, v⟩ := p
    simp only [detectorFinalCum, detectorTrace, List.sum_cons]
    rw [ih, detectorStep_cum]
    omega

/-- C4: the hit detector is a two-state machine: armed, an in-range
voltage past the refractory window emits a hit, bumps the count by one,
records the hit time and disarms; armed otherwise nothing changes;
disarmed it never emits and re-arms exactly when the voltage drops below
`lowerExit`; the cumulative count equals its start value plus the number
of emitted hits over any evaluation sequence, hence is non-decreasing. -/
theorem hitDetector_machine (cfg : ADCConfig) (armed : Bool)
    (last cum now : Nat) (v : ℚ) :
    (armed = true →
      (cfg.lowerEnter ≤ v ∧ v ≤ cfg.upperLimit ∧
        cfg.refractUs ≤ u32sub now last) →
      detectorStep cfg armed last cum now v =
        { hit := 1, armed := false, last_hit_us := now, cum_counts := cum + 1 }) ∧
    (armed = true →
      ¬(cfg.lowerEnter ≤ v ∧ v ≤ cfg.upperLimit ∧
        cfg.refractUs ≤ u32sub now last) →
      detectorStep cfg armed last cum now v =
        { hit := 0, armed := true, last_hit_us := last, cum_counts := cum }) ∧
    (armed = false →
      detectorStep cfg armed last cum now v =
        { hit := 0, armed := decide (v < cfg.lowerExit),
          last_hit_us := last, cum_counts := cum }) ∧
    (∀ evts : List (Nat × ℚ),
      detectorFinalCum cfg armed last cum evts =
        cum + (detectorTrace cfg armed last cum evts).sum ∧
      cum ≤ detectorFinalCum cfg armed last cum evts) := by
  refine ⟨?_, ?_, ?_, ?_⟩
  · intro ha hcond
    subst ha
    unfold detectorStep
    rw [if_pos rfl, if_pos hcond]
  · intro ha hcond
    subst ha
    unfold detectorStep
    rw [if_pos rfl, if_neg hcond]
  · intro ha
    subst ha
    unfold detectorStep
    rw [if_neg (by simp)]
  · intro evts
    have h := detectorFinalCum_eq cfg evts armed last cum
    exact ⟨h, by omega⟩

/-- Witness for C4: with the firmware thresholds, an armed detector at
0.5 V past the refractory window hits and disarms; a disarmed detector at
0.5 V stays disarmed and silent. -/
theorem hitDetector_machine_witness :
    detectorStep seesConfig true 0 0 1000 (1/2) =
      { hit := 1, armed := false, last_hit_us := 1000, cum_counts := 1 } ∧
    detectorStep seesConfig false 0 0 1000 (1/2) =
      { hit := 0, armed := decide ((1:ℚ)/2 < seesConfig.lowerExit),
        last_hit_us := 0, cum_counts := 0 } :=
  ⟨(hitDetector_machine seesConfig true 0 0 1000 (1/2)).1 rfl
      ⟨by norm_num [seesConfig], by norm_num [seesConfig],
       by norm_num [seesConfig, u32sub, U32]⟩,
   (hitDetector_machine seesConfig false 0 0 1000 (1/2)).2.2.1 rfl⟩

/-- Counterexample to C5 as stated: in the spec's end-to-end scenario the
second sample (0.5 V at t = 100 µs) emits no hit — the detector is
constructed with `_last_hit_us = 0`, so at t = 100 the refractory test
`(100 - 0) >= 300` fails and the hit is suppressed from boot. -/
theorem scenario_hits_counterexample :
    (detectorTrace seesConfig true 0 0
        [(0, 1/10), (100, 1/2), (200, 1/2), (300, 1/10), (50000, 1/2)]).getD 1 0
      = 0 ∧
    detectorTrace seesConfig true 0 0
        [(0, 1/10), (100, 1/2), (200, 1/2), (300, 1/10), (50000, 1/2)] ≠
      [0, 1, 0, 0, 1] := by
  have h : detectorTrace seesConfig true 0 0
      [(0, 1/10), (100, 1/2), (200, 1/2), (300, 1/10), (50000, 1/2)] =
      [0, 0, 0, 0, 1] := by
    norm_num [detectorTrace, detectorStep, seesConfig, u32sub, U32]
  rw [h]
  exact ⟨rfl, by decide⟩

/-- C5 (amended): with refractory = 300 µs, thresholds 0.30/0.30/0.80 V
and the detector's initial state (`armed`, `lastHitTimestamp = 0`),
the samples 0.1, 0.5, 0.5, 0.1, 0.5 V at t = 0, 100, 200, 300, 50000 µs
emit exactly one hit, at t = 50000: t = 100 and t = 200 fall inside the
refractory window measured from the boot value `lastHitTimestamp = 0`,
t = 0 and t = 300 are below the entry threshold, and t = 50000
re-triggers (refractory long elapsed, voltage back in range). -/
theorem scenario_hits :
    detectorTrace seesConfig true 0 0
        [(0, 1/10), (100, 1/2), (200, 1/2), (300, 1/10), (50000, 1/2)] =
      [0, 0, 0, 0, 1] ∧
    detectorFinalCum seesConfig true 0 0
        [(0, 1/10), (100, 1/2), (200, 1/2), (300, 1/10), (50000, 1/2)] = 1 := by
  constructor
  · norm_num [detectorTrace, detectorStep, seesConfig, u32sub, U32]
  · norm_num [detectorFinalCum, detectorStep, seesConfig, u32sub, U32]

/-! ## Claim C9 -/

theorem u32add_add (a b c : Nat) : u32add (u32add a b) c = u32add a (b + c) := by
  unfold u32add
  rw [Nat.mod_add_mod, Nat.add_assoc]

theorem sampleAndStream_rejected {st : ADCState} {now : Nat} (v : ℚ)
    (h : tickAccepted st now = false) :
    sampleAndStream st now v = (st, none, none) := by
  unfold sampleAndStream
  rw [if_pos h]

theorem sampleAndStream_accepted_next {st : ADCState} {now : Nat} (v : ℚ)
    (h : tickAccepted st now = true) :
    (sampleAndStream st now v).1.next_sample_us = u32add st.next_sample_us 100 := by
  unfold sampleAndStream
  rw [if_neg (by simp [h])]

/-- C9: a `sampleAndStream` call at time `now` is accepted exactly when
the signed reinterpretation of `now - nextSampleUs` is non-negative; an
accepted call advances `nextSampleUs` by exactly the 100 µs sample
interval (never to `now + interval`), a rejected call changes nothing,
and over any call sequence `nextSampleUs` ends at its start value plus
interval × (number of accepted calls), mod 2^32 — jitter only, no
drift. -/
theorem tick_accumulator (st : ADCState) (now : Nat) (v : ℚ) :
    (tickAccepted st now = true ↔ 0 ≤ toSigned32 (u32sub now st.next_sample_us)) ∧
    (tickAccepted st now = true →
      (sampleAndStream st now v).1.next_sample_us =
        u32add st.next_sample_us 100) ∧
    (tickAccepted st now = false → (sampleAndStream st now v).1 = st) ∧
    (∀ calls : List (Nat × ℚ),
      (runCalls st calls).next_sample_us % U32 =
        u32add st.next_sample_us (100 * acceptedCount st calls)) := by
  refine ⟨decide_eq_true_iff, fun h => sampleAndStream_accepted_next v h,
    fun h => by rw [sampleAndStream_rejected v h], ?_⟩
  have main : ∀ (calls : List (Nat × ℚ)) (s : ADCState),
      (runCalls s calls).next_sample_us % U32 =
        u32add s.next_sample_us (100 * acceptedCount s calls) := by
    intro calls
    induction calls with
    | nil =>
      intro s
      simp [runCalls, acceptedCount, u32add]
    | cons p rest ih =>
      intro s
      obtain ⟨now', v'⟩ := p
      simp only [runCalls, acceptedCount]
      by_cases h : tickAccepted s now'
      · rw [ih, if_pos h]
        have hnext := sampleAndStream_accepted_next v' h
        rw [hnext, u32add_add]
        congr 1
        ring
      · rw [ih, if_neg h]
        rw [sampleAndStream_rejected v' (by simpa using h)]
        simp
  exact fun calls => main calls st

/-- Witness for C9: with `nextSampleUs = 50`, a call at t = 100 is
accepted and advances the accumulator to 150; a call at t = 10 is
rejected and leaves the driver untouched. -/
theorem tick_accumulator_witness :
    ((sampleAndStream
        { isCollecting := false, sdAvailable := false, bufferFileOpen := false,
          armed := true, t0_us := 0, next_sample_us := 50, last_hit_us := 0,
          cum_counts := 0, buffer := CircularBuffer.init 2 } 100 0).1.next_sample_us =
      u32add 50 100) ∧
    ((sampleAndStream
        { isCollecting := false, sdAvailable := false, bufferFileOpen := false,
          armed := true, t0_us := 0, next_sample_us := 50, last_hit_us := 0,
          cum_counts := 0, buffer := CircularBuffer.init 2 } 10 0).1 =
      { isCollecting := false, sdAvailable := false, bufferFileOpen := false,
        armed := true, t0_us := 0, next_sample_us := 50, last_hit_us := 0,
        cum_counts := 0, buffer := CircularBuffer.init 2 }) :=
  ⟨(tick_accumulator
      { isCollecting := false, sdAvailable := false, bufferFileOpen := false,
        armed := true, t0_us := 0, next_sample_us := 50, last_hit_us := 0,
        cum_counts := 0, buffer := CircularBuffer.init 2 } 100 0).2.1 (by decide),
   (tick_accumulator
      { isCollecting := false, sdAvailable := false, bufferFileOpen := false,
        armed := true, t0_us := 0, next_sample_us := 50, last_hit_us := 0,
        cum_counts := 0, buffer := CircularBuffer.init 2 } 10 0).2.2.1 (by decide)⟩

/-! ## Claims C6, C7 -/

/-- C7 (amended): whenever the persistence medium is available, a capture
request on an empty store is rejected immediately with the empty-store
error, fails, and produces no artifact — the snap counter and manager
state are unchanged.  (When the medium is unavailable, the
medium-unavailable check fires first; the call still fails with no
artifact.) -/
theorem captureSnap_empty_store (sm : SnapManagerState)
    (buffer : CircularBuffer) (t : Nat) (aOk fOk : Bool)
    (hsd : sm.sdAvailable = true) (hempty : buffer.size = 0) :
    (captureSnap sm buffer t aOk fOk).1 = SnapResult.err SnapError.emptyStore ∧
    (captureSnap sm buffer t aOk fOk).2 = sm := by
  unfold captureSnap
  rw [if_neg (by simp [hsd]), if_pos hempty]
  exact ⟨rfl, rfl⟩

/-- Witness for C7's amended theorem: SD present, empty store. -/
theorem captureSnap_empty_store_witness :
    (captureSnap { windowSeconds := 5/2, snapCount := 0, sdAvailable := true }
        (CircularBuffer.init 4) 9 true true).1 =
      SnapResult.err SnapError.emptyStore ∧
    (captureSnap { windowSeconds := 5/2, snapCount := 0, sdAvailable := true }
        (CircularBuffer.init 4) 9 true true).2 =
      { windowSeconds := 5/2, snapCount := 0, sdAvailable := true } :=
  captureSnap_empty_store _ _ 9 true true rfl rfl

/-- Counterexample to C7 as stated: a capture request on an empty store
issued while the SD card is unavailable is rejected with the
SD-unavailable error — not the empty-store error — because the source
checks `_sdAvailable` before `buffer.size()`. -/
theorem captureSnap_empty_store_counterexample :
    (captureSnap { windowSeconds := 5/2, snapCount := 0, sdAvailable := false }
        (CircularBuffer.init 4) 9 true true).1 =
      SnapResult.err SnapError.sdUnavailable ∧
    SnapResult.err SnapError.sdUnavailable ≠
      SnapResult.err SnapError.emptyStore ∧
    (CircularBuffer.init 4).size = 0 :=
  ⟨rfl, by decide, rfl⟩

/-- C6 (amended): when the persistence medium is unavailable,
acquisition, detection and live serial streaming continue unaffected —
the per-sample transition of the ring store, the detector state and the
serial telemetry line do not depend on the SD flag — but `captureSnap`
fails immediately with the SD-unavailable error, produces no artifact,
and never increments the snap counter: the source has no live-forwarding
completion path for snaps. -/
theorem captureSnap_sd_unavailable (sm : SnapManagerState)
    (buffer : CircularBuffer) (t : Nat) (aOk fOk : Bool)
    (hsd : sm.sdAvailable = false) :
    (captureSnap sm buffer t aOk fOk).1 = SnapResult.err SnapError.sdUnavailable ∧
    (captureSnap sm buffer t aOk fOk).2 = sm ∧
    (∀ (st : ADCState) (b : Bool) (now : Nat) (v : ℚ),
      ((sampleAndStream { st with sdAvailable := b } now v).1.buffer =
        (sampleAndStream st now v).1.buffer) ∧
      ((sampleAndStream { st with sdAvailable := b } now v).1.armed =
        (sampleAndStream st now v).1.armed) ∧
      ((sampleAndStream { st with sdAvailable := b } now v).1.cum_counts =
        (sampleAndStream st now v).1.cum_counts) ∧
      ((sampleAndStream { st with sdAvailable := b } now v).2.1 =
        (sampleAndStream st now v).2.1)) := by
  refine ⟨?_, ?_, ?_⟩
  · unfold captureSnap
    rw [if_pos hsd]
  · unfold captureSnap
    rw [if_pos hsd]
  · intro st b now v
    have heq : tickAccepted { st with sdAvailable := b } now =
        tickAccepted st now := rfl
    unfold sampleAndStream
    rw [heq]
    by_cases h : tickAccepted st now = false
    · rw [if_pos h, if_pos h]
      exact ⟨rfl, rfl, rfl, rfl⟩
    · rw [if_neg h, if_neg h]
      exact ⟨rfl, rfl, rfl, rfl⟩

/-- Witness for C6's amended theorem: SD absent, one-record store — the
capture fails with the SD error, the counter stays 0, and a concrete
sampling step is identical with and without the SD flag. -/
theorem captureSnap_sd_unavailable_witness :
    (captureSnap { windowSeconds := 5/2, snapCount := 0, sdAvailable := false }
        ((CircularBuffer.init 4).push ⟨0, 0, 0, 1, 0, 5⟩) 9 true true).1 =
      SnapResult.err SnapError.sdUnavailable ∧
    (captureSnap { windowSeconds := 5/2, snapCount := 0, sdAvailable := false }
        ((CircularBuffer.init 4).push ⟨0, 0, 0, 1, 0, 5⟩) 9 true true).2 =
      { windowSeconds := 5/2, snapCount := 0, sdAvailable := false } ∧
    ((sampleAndStream
        { isCollecting := true, sdAvailable := false, bufferFileOpen := false,
          armed := true, t0_us := 0, next_sample_us := 0, last_hit_us := 0,
          cum_counts := 0, buffer := CircularBuffer.init 2 } 100 0).1.buffer =
      (sampleAndStream
        { isCollecting := true, sdAvailable := true, bufferFileOpen := false,
          armed := true, t0_us := 0, next_sample_us := 0, last_hit_us := 0,
          cum_counts := 0, buffer := CircularBuffer.init 2 } 100 0).1.buffer) := by
  have h := captureSnap_sd_unavailable
    { windowSeconds := 5/2, snapCount := 0, sdAvailable := false }
    ((CircularBuffer.init 4).push ⟨0, 0, 0, 1, 0, 5⟩) 9 true true rfl
  exact ⟨h.1, h.2.1,
    (h.2.2 { isCollecting := true, sdAvailable := true, bufferFileOpen := false,
             armed := true, t0_us := 0, next_sample_us := 0, last_hit_us := 0,
             cum_counts := 0, buffer := CircularBuffer.init 2 } false 100 0).1⟩

/-- Counterexample to C6 as stated: with the SD card unavailable and a
non-empty store, `captureSnap` does not succeed via any live-forwarding
path — it fails outright with the SD error and the snap counter is not
incremented. -/
theorem snap_partial_success_counterexample :
    (captureSnap { windowSeconds := 5/2, snapCount := 0, sdAvailable := false }
        ((CircularBuffer.init 4).push ⟨0, 0, 0, 1, 0, 5⟩) 9 true true).1 =
      SnapResult.err SnapError.sdUnavailable ∧
    (captureSnap { windowSeconds := 5/2, snapCount := 0, sdAvailable := false }
        ((CircularBuffer.init 4).push ⟨0, 0, 0, 1, 0, 5⟩) 9 true true).2.snapCount
      = 0 ∧
    ((CircularBuffer.init 4).push ⟨0, 0, 0, 1, 0, 5⟩).size = 1 :=
  ⟨rfl, rfl, rfl⟩

/-! ## Claim C3 -/

/-- C3: in the native target, the snap command's post-trigger settle wait
is the blocking shim `delay(2500)`: across the whole 2.5 s wait
(2 500 000 µs, i.e. 25 000 nominal 100 µs sample periods) the ring store
is bit-for-bit unchanged — zero records are pushed while the command
handler sleeps — and `captureSnap` then queries that starved store.  The
spec instead requires recording to continue throughout the wait. -/
theorem native_snap_wait_starves_store (st : NativeState) (aOk fOk : Bool) :
    (nativeDelay st 2500).store = st.store ∧
    (nativeDelay st 2500).now_us = st.now_us + 2500000 ∧
    (processSnapNative st aOk fOk).1.store = st.store :=
  ⟨rfl, rfl, rfl⟩
